import Mathlib

set_option maxRecDepth 10000

/-!
Verification of the Cortex agent serializer.

This file gives a shallow embedding of the pure serialization core of the
repository (the canonical copy lives in `src/get_agents_ddl/cortex_agents_ddl.py`;
a drifted near-duplicate of the tool-resource emission lives in
`src/cortex_agent_builder.py`).  Python strings are modelled as Lean `String`
(in this toolchain a `String` is a structure holding a `List Char`, and
`String.length` counts characters, matching Python's code-point `len`).
JSON values produced by `json.loads` are modelled by the inductive `JVal`
below.  Python exceptions escaping a function are modelled by `Option`:
`none` means the Python code raises and produces no output.
-/

/-! ## Python float semantics for the `0.7 * max_length` threshold

`truncate_description` compares an integer index against `max_length * 0.7`,
a binary64 floating-point product.  The double nearest to `0.7` is
`6305039478318694 / 2 ^ 53` (slightly below `7 / 10`), and Python evaluates
`max_length * 0.7` by multiplying exactly and rounding to the nearest double
(ties to even).  We model that product exactly, scaled by `2 ^ 53`, which is
exact for every `max_length < 2 ^ 53` (the program only ever passes 150, 200
and 300).  A naive rational `7 / 10` model would be wrong: in Python
`63 > 90 * 0.7` is `True` because `90 * 0.7 == 62.99999999999999`.
-/

/-- Bit length of a natural number, by fuel-bounded structural recursion
(the fuel `n` itself always suffices, and the kernel reduces it in
logarithmically many steps). -/
def bitsAux : Nat → Nat → Nat
  | 0, _ => 0
  | fuel + 1, n => if n = 0 then 0 else bitsAux fuel (n / 2) + 1

/-- Number of bits of `n` (0 for 0). -/
def bits (n : Nat) : Nat := bitsAux n n

/-- The integer mantissa of the IEEE-754 binary64 value nearest to `0.7`,
scaled by `2 ^ 53`:  `(0.7 : Float) = M7 / 2 ^ 53`. -/
def M7 : Nat := 6305039478318694

/-- `roundedProd m` is the binary64 value of the Python expression
`m * 0.7`, scaled by `2 ^ 53`: the exact product `m * M7` is rounded to 53
significant bits, ties to even.  Exact for `m < 2 ^ 53`. -/
def roundedProd (m : Nat) : Nat :=
  let a := m * M7
  if a = 0 then 0
  else
    let k := bits a
    if k ≤ 53 then a
    else
      let s := k - 53
      let q := a / 2 ^ s
      let r := a % 2 ^ s
      let half := 2 ^ (s - 1)
      let q' := if half < r ∨ (r = half ∧ q % 2 = 1) then q + 1 else q
      q' * 2 ^ s

/-- The Python comparison `n > m * 0.7` for an integer `n` (e.g. an
`str.rfind` result, which may be `-1`) and a natural `m`. -/
def pyGt07 (n : Int) (m : Nat) : Bool := decide ((roundedProd m : Int) < n * 2 ^ 53)

/-! ## Python string primitives -/

/-- Python's `s[:k]` for an integer `k` (a negative `k` counts from the end,
clamping at 0). -/
def pySliceIdx (len : Nat) (k : Int) : Nat :=
  if k < 0 then ((len : Int) + k).toNat else k.toNat

/-- Python `s[:k]`, `k` a possibly negative integer. -/
def pySlice (s : String) (k : Int) : String := ⟨s.data.take (pySliceIdx s.data.length k)⟩

/-- Python `s[:n]` for a natural `n`. -/
def pyTake (s : String) (n : Nat) : String := ⟨s.data.take n⟩

/-- Index of the last occurrence of `c`, `-1` if absent: Python `s.rfind(c)`. -/
def rfindIdx : List Char → Char → Int
  | [], _ => -1
  | x :: xs, c =>
    let r := rfindIdx xs c
    if 0 ≤ r then r + 1 else if x = c then 0 else -1

/-- Python `s.rfind(c)` on a string. -/
def rfindChar (s : String) (c : Char) : Int := rfindIdx s.data c

/-- Splitting a character list at newline characters; Python `s.split("\n")`
(always returns at least one piece). -/
def splitOnNl : List Char → List (List Char)
  | [] => [[]]
  | c :: cs =>
    if c = '\n' then [] :: splitOnNl cs
    else
      match splitOnNl cs with
      | [] => [[c]]
      | p :: ps => (c :: p) :: ps

/-- Python `s.split("\n")` on a string. -/
def pySplitNl (s : String) : List String := (splitOnNl s.data).map (fun l => ⟨l⟩)

/-- Python `"\n".join(parts)`. -/
def joinNl : List String → String
  | [] => ""
  | [x] => x
  | x :: y :: xs => x ++ "\n" ++ joinNl (y :: xs)

/-! ## `truncate_description`

Embedding of `truncate_description` from
`src/get_agents_ddl/cortex_agents_ddl.py` lines 59-73 (the copy in
`src/SiS_Version.py` lines 14-35 is character-for-character the same logic):

```
if not description: return ""
if len(description) <= max_length: return description
truncated = description[:max_length]
last_period = truncated.rfind('.')
last_newline = truncated.rfind('\n')
if last_period > max_length * 0.7: return description[: last_period + 1]
elif last_newline > max_length * 0.7: return description[:last_newline]
else: return description[: max_length - 3] + "..."
```

Note `max_length - 3` is Python integer subtraction: for `max_length < 3` it
is negative and the slice counts from the end of the string.  The local
variables `truncated`, `last_period`, `last_newline` of the source are
inlined here. -/
def truncate_description (description : String) (max_length : Nat) : String :=
  if description = "" then ""
  else if description.length ≤ max_length then description
  else if pyGt07 (rfindChar (pyTake description max_length) '.') max_length then
    pySlice description (rfindChar (pyTake description max_length) '.' + 1)
  else if pyGt07 (rfindChar (pyTake description max_length) '\n') max_length then
    pySlice description (rfindChar (pyTake description max_length) '\n')
  else pySlice description ((max_length : Int) - 3) ++ "..."

/-! ## Basic lemmas about the string primitives -/

theorem rfindIdx_lt_length (l : List Char) (c : Char) : rfindIdx l c < (l.length : Int) := by
  induction l with
  | nil => simp [rfindIdx]
  | cons x xs ih =>
    simp only [rfindIdx, List.length_cons]
    split
    · push_cast; omega
    · split <;> push_cast <;> omega

theorem neg_one_le_rfindIdx (l : List Char) (c : Char) : -1 ≤ rfindIdx l c := by
  induction l with
  | nil => simp [rfindIdx]
  | cons x xs ih =>
    simp only [rfindIdx]
    split
    · omega
    · split <;> omega

theorem rfindIdx_get (l : List Char) (c : Char) (n : Nat)
    (h : rfindIdx l c = (n : Int)) : l.get? n = some c := by
  induction l generalizing n with
  | nil => simp [rfindIdx] at h
  | cons x xs ih =>
    simp only [rfindIdx] at h
    split at h
    · rename_i hr
      obtain ⟨m, hm⟩ := Int.eq_ofNat_of_zero_le hr
      rw [hm] at h
      have hn : n = m + 1 := by omega
      subst hn
      simpa using ih m hm
    · split at h
      · rename_i hx
        have hn : n = 0 := by omega
        subst hn
        simp [hx]
      · omega

theorem pyGt07_pos {n : Int} {m : Nat} (h : pyGt07 n m = true) : 1 ≤ n := by
  have hlt : (roundedProd m : Int) < n * 2 ^ 53 := by
    simpa [pyGt07] using h
  have h0 : (0 : Int) ≤ (roundedProd m : Int) := Int.ofNat_nonneg _
  nlinarith

/-- The Python threshold for `max_length = 200` is exactly `140.0`:
`n > 200 * 0.7` holds iff `140 < n`. -/
theorem pyGt07_200 (n : Int) : pyGt07 n 200 = decide (140 < n) := by
  have h : roundedProd 200 = 140 * 2 ^ 53 := by decide
  simp only [pyGt07, h, decide_eq_decide]
  constructor <;> intro hlt
  · push_cast at hlt
    nlinarith
  · push_cast
    nlinarith

theorem splitOnNl_of_no_nl (l : List Char) (h : '\n' ∉ l) : splitOnNl l = [l] := by
  induction l with
  | nil => rfl
  | cons c cs ih =>
    simp only [List.mem_cons, not_or] at h
    simp only [splitOnNl]
    rw [if_neg (fun hc => h.1 hc.symm), ih h.2]

/-- Length of a truncated string never exceeds the bound, provided the bound
is at least 3 (below 3, the `max_length - 3` slice wraps around). -/
theorem length_pySlice_le (d : String) (k : Int) : (pySlice d k).length ≤ (pySliceIdx d.data.length k) := by
  show (d.data.take (pySliceIdx d.data.length k)).length ≤ pySliceIdx d.data.length k
  simp [List.length_take]

theorem truncate_description_length_le (d : String) (m : Nat) (h3 : 3 ≤ m) :
    (truncate_description d m).length ≤ m := by
  unfold truncate_description
  split
  · simp
  · split
    · omega
    · rename_i hne hlen
      have hdm : m < d.data.length := by
        have : d.length = d.data.length := rfl
        omega
      have hlentr : (pyTake d m).data.length = m := by
        show (d.data.take m).length = m
        rw [List.length_take]
        omega
      split
      · rename_i hp
        have h1 : 1 ≤ rfindChar (pyTake d m) '.' := pyGt07_pos hp
        have h2 : rfindChar (pyTake d m) '.' < (m : Int) := by
          have := rfindIdx_lt_length (pyTake d m).data '.'
          rwa [hlentr] at this
        refine le_trans (length_pySlice_le d _) ?_
        simp only [pySliceIdx]
        rw [if_neg (by omega)]
        omega
      · split
        · rename_i hp hn
          have h1 : 1 ≤ rfindChar (pyTake d m) '\n' := pyGt07_pos hn
          have h2 : rfindChar (pyTake d m) '\n' < (m : Int) := by
            have := rfindIdx_lt_length (pyTake d m).data '\n'
            rwa [hlentr] at this
          refine le_trans (length_pySlice_le d _) ?_
          simp only [pySliceIdx]
          rw [if_neg (by omega)]
          omega
        · have hk : pySliceIdx d.data.length ((m : Int) - 3) = m - 3 := by
            simp only [pySliceIdx]
            rw [if_neg (by omega)]
            omega
          rw [String.length_append]
          have h1 : (pySlice d ((m : Int) - 3)).length ≤ m - 3 := hk ▸ length_pySlice_le d _
          have h3' : ("..." : String).length = 3 := by decide
          omega

/-- A string that already fits is returned unchanged, for every bound. -/
theorem truncate_description_of_le (d : String) (m : Nat) (h : d.length ≤ m) :
    truncate_description d m = d := by
  by_cases he : d = ""
  · subst he; simp [truncate_description]
  · unfold truncate_description
    rw [if_neg he, if_pos h]

/-- C1 (amended): for `maxLen ≥ 3` the result length is at most `maxLen`,
and for every `maxLen` a fitting text is returned unchanged.  (For
`maxLen < 3` the ellipsis branch `text[:maxLen-3] + "..."` slices from the
end of the string and can exceed the bound.) -/
theorem truncate_contract (d : String) (m : Nat) :
    (3 ≤ m → (truncate_description d m).length ≤ m) ∧
    (d.length ≤ m → truncate_description d m = d) :=
  ⟨truncate_description_length_le d m, truncate_description_of_le d m⟩

/-- Witness for `truncate_contract` at concrete inputs. -/
theorem truncate_contract_witness :
    (truncate_description "abcdef" 4).length ≤ 4 ∧ truncate_description "ab" 4 = "ab" :=
  ⟨(truncate_contract "abcdef" 4).1 (by decide),
   (truncate_contract "ab" 4).2 (by decide)⟩

/-- C1 counterexample: at `maxLen = 2` the claimed bound fails —
`truncate("abc", 2)` is `"ab..."`, of length 5. -/
theorem truncate_length_counterexample :
    truncate_description "abc" 2 = "ab..." ∧
    ¬ (truncate_description "abc" 2).length ≤ 2 := by
  constructor
  · decide
  · decide

/-- C5 (amended): truncation is idempotent for every bound `N ≥ 3`. -/
theorem truncate_idempotent (d : String) (m : Nat) (h3 : 3 ≤ m) :
    truncate_description (truncate_description d m) m = truncate_description d m :=
  truncate_description_of_le _ m (truncate_description_length_le d m h3)

/-- Witness for `truncate_idempotent` at a concrete input. -/
theorem truncate_idempotent_witness :
    truncate_description (truncate_description "abcdefgh" 5) 5 =
      truncate_description "abcdefgh" 5 :=
  truncate_idempotent "abcdefgh" 5 (by decide)

/-- C5 counterexample: at `N = 2` idempotence fails —
`truncate("abcde", 2) = "abcd..."` but truncating again gives `"abcd....."`. -/
theorem truncate_idempotent_counterexample :
    truncate_description "abcde" 2 = "abcd..." ∧
    truncate_description (truncate_description "abcde" 2) 2 = "abcd....." ∧
    ¬ truncate_description (truncate_description "abcde" 2) 2 =
        truncate_description "abcde" 2 := by
  refine ⟨by decide, by decide, by decide⟩

/-- C7 counterexample: a description of length 250 with no period and no
newline before position 140, but with a period at position 150.  The claim
predicts the 197-character prefix plus `"..."` (length 200); the code instead
cuts after the period at 150 (since `150 > 200 * 0.7`), giving length 151. -/
theorem truncate_c7_counterexample :
    (⟨List.replicate 150 'a' ++ '.' :: List.replicate 99 'a'⟩ : String).length = 250 ∧
    (∀ i, i < 140 →
      (⟨List.replicate 150 'a' ++ '.' :: List.replicate 99 'a'⟩ : String).data.get? i ≠ some '.' ∧
      (⟨List.replicate 150 'a' ++ '.' :: List.replicate 99 'a'⟩ : String).data.get? i ≠ some '\n') ∧
    truncate_description ⟨List.replicate 150 'a' ++ '.' :: List.replicate 99 'a'⟩ 200 =
      ⟨List.replicate 150 'a' ++ ['.']⟩ ∧
    ¬ truncate_description ⟨List.replicate 150 'a' ++ '.' :: List.replicate 99 'a'⟩ 200 =
        pyTake ⟨List.replicate 150 'a' ++ '.' :: List.replicate 99 'a'⟩ 197 ++ "..." := by
  refine ⟨by decide, by decide, by decide, by decide⟩

/-- C7 (amended): for every description of length 250 whose first 200
characters contain no period and no newline at the positions 141 through 199
(positions up to 140 are irrelevant: the `0.7` threshold only looks at later
break points), truncation at 200 returns the 197-character prefix followed by
`"..."`, of total length exactly 200. -/
theorem truncate_ellipsis_at_200 (d : String)
    (hlen : d.length = 250)
    (hclean : ∀ i, i < 200 → 141 ≤ i →
      d.data.get? i ≠ some '.' ∧ d.data.get? i ≠ some '\n') :
    truncate_description d 200 = pyTake d 197 ++ "..." ∧
    (truncate_description d 200).length = 200 := by
  have hdata : d.data.length = 250 := hlen
  have hne : ¬ d = "" := by
    intro h
    subst h
    simp [String.length] at hlen
  have hfit : ¬ d.length ≤ 200 := by omega
  have htr : (pyTake d 200).data.length = 200 := by
    show (d.data.take 200).length = 200
    rw [List.length_take]
    omega
  have hgt : ∀ c : Char, (∀ i, i < 200 → 141 ≤ i → d.data.get? i ≠ some c) →
      pyGt07 (rfindChar (pyTake d 200) c) 200 = false := by
    intro c hc
    rw [pyGt07_200, decide_eq_false_iff_not]
    intro h140
    have h0 : (0 : Int) ≤ rfindChar (pyTake d 200) c := by omega
    obtain ⟨nt, hnt⟩ := Int.eq_ofNat_of_zero_le h0
    have hub : rfindChar (pyTake d 200) c < ((pyTake d 200).data.length : Int) :=
      rfindIdx_lt_length _ c
    rw [htr] at hub
    have hnt200 : nt < 200 := by omega
    have hnt141 : 141 ≤ nt := by omega
    have := rfindIdx_get (pyTake d 200).data c nt hnt
    rw [show (pyTake d 200).data = d.data.take 200 from rfl, List.get?_take hnt200] at this
    exact hc nt hnt200 hnt141 this
  have hp : pyGt07 (rfindChar (pyTake d 200) '.') 200 = false :=
    hgt '.' (fun i h1 h2 => (hclean i h1 h2).1)
  have hnl : pyGt07 (rfindChar (pyTake d 200) '\n') 200 = false :=
    hgt '\n' (fun i h1 h2 => (hclean i h1 h2).2)
  have hres : truncate_description d 200 = pySlice d (((200 : Nat) : Int) - 3) ++ "..." := by
    unfold truncate_description
    rw [if_neg hne, if_neg hfit, if_neg (by simp [hp]), if_neg (by simp [hnl])]
  have h197 : pySliceIdx d.data.length (((200 : Nat) : Int) - 3) = 197 := rfl
  have hslice : pySlice d (((200 : Nat) : Int) - 3) = pyTake d 197 := by
    show (⟨d.data.take (pySliceIdx d.data.length (((200 : Nat) : Int) - 3))⟩ : String) = ⟨d.data.take 197⟩
    rw [h197]
  refine ⟨by rw [hres, hslice], ?_⟩
  rw [hres, hslice, String.length_append]
  have h197 : (pyTake d 197).length = 197 := by
    show (d.data.take 197).length = 197
    rw [List.length_take]
    omega
  have h3 : ("..." : String).length = 3 := by decide
  omega

/-- Witness for `truncate_ellipsis_at_200` at a concrete 250-character input. -/
theorem truncate_ellipsis_at_200_witness :
    truncate_description ⟨List.replicate 250 'a'⟩ 200 =
      pyTake ⟨List.replicate 250 'a'⟩ 197 ++ "..." ∧
    (truncate_description ⟨List.replicate 250 'a'⟩ 200).length = 200 :=
  truncate_ellipsis_at_200 ⟨List.replicate 250 'a'⟩ (by decide) (by decide)

/-! ## JSON values

`json.loads` produces dicts (insertion-ordered), lists, strings, ints,
floats, bools and `None`.  We model everything except floats: every numeric
value appearing in an agent specification relevant to the claims is an
integer, and no claim concerns float-valued fields.  A dict is an ordered
association list; the inputs we reason about have unique keys, as Python
dicts do. -/

inductive JVal where
  | str (s : String)
  | int (n : Int)
  | bool (b : Bool)
  | null
  | arr (elems : List JVal)
  | obj (fields : List (String × JVal))

/-- First-match lookup in an ordered field list (Python dict indexing). -/
def lookupField : List (String × JVal) → String → Option JVal
  | [], _ => none
  | (k, v) :: fs, key => if k = key then some v else lookupField fs key

/-- Python `key in dict`. -/
def containsKey (fs : List (String × JVal)) (k : String) : Bool :=
  (lookupField fs k).isSome

/-- Python truthiness of a JSON value. -/
def pyTruthy : JVal → Bool
  | .str s => decide (s ≠ "")
  | .int n => decide (n ≠ 0)
  | .bool b => b
  | .null => false
  | .arr l => !l.isEmpty
  | .obj fs => !fs.isEmpty

/-- Python `==` between a JSON value and a string literal (false whenever the
value is not a string). -/
def pyEqS (v : JVal) (s : String) : Bool :=
  match v with
  | .str t => t = s
  | _ => false

mutual

/-- Python `repr` of a JSON value (with `pyReprElems`/`pyReprFields` for the
comma-separated container interiors).  String escaping inside `repr` is
approximated by plain single quotes; no claim exercises the representation of
containers holding quote or escape characters. -/
def pyReprVal : JVal → String
  | .str s => "'" ++ s ++ "'"
  | .int n => toString n
  | .bool b => if b then "True" else "False"
  | .null => "None"
  | .arr l => "[" ++ pyReprElems l ++ "]"
  | .obj fs => "\x7b" ++ pyReprFields fs ++ "\x7d"

/-- Comma-separated `repr` of list elements. -/
def pyReprElems : List JVal → String
  | [] => ""
  | [x] => pyReprVal x
  | x :: y :: xs => pyReprVal x ++ ", " ++ pyReprElems (y :: xs)

/-- Comma-separated `repr` of dict items. -/
def pyReprFields : List (String × JVal) → String
  | [] => ""
  | [(k, v)] => "'" ++ k ++ "': " ++ pyReprVal v
  | (k, v) :: y :: xs => "'" ++ k ++ "': " ++ pyReprVal v ++ ", " ++ pyReprFields (y :: xs)

end

/-- Python `str()` as applied by f-string interpolation (identical to `repr`
except on strings themselves). -/
def pyStr : JVal → String
  | .str s => s
  | v => pyReprVal v

/-- The Python pattern `if K in X: ... X[K] ...`, combined: `none` models a
raised exception (`in` on a number/bool/null is a `TypeError`; indexing a
string or list with a string key is a `TypeError`); `some none` means the key
is absent (the block is skipped); `some (some v)` is the found value.  For a
string, `in` is substring containment; for a list, element membership. -/
def pyMemLookup (v : JVal) (k : String) : Option (Option JVal) :=
  match v with
  | .obj fs => some (lookupField fs k)
  | .str s => if decide (k.data <:+: s.data) then none else some none
  | .arr l => if l.any (fun e => pyEqS e k) then none else some none
  | _ => none

/-- Python `X.get(K, default)` (raises unless `X` is a dict). -/
def pyGet (v : JVal) (k : String) (dflt : JVal) : Option JVal :=
  match v with
  | .obj fs => some ((lookupField fs k).getD dflt)
  | _ => none

/-- Python iteration `for x in V`: lists yield elements, strings yield
one-character strings, dicts yield their keys; other values raise. -/
def pyIter : JVal → Option (List JVal)
  | .arr l => some l
  | .str s => some (s.data.map (fun c => .str ⟨[c]⟩))
  | .obj fs => some (fs.map (fun kv => .str kv.1))
  | _ => none

/-- Python `X.items()` (raises unless `X` is a dict). -/
def pyItems : JVal → Option (List (String × JVal))
  | .obj fs => some fs
  | _ => none

/-- Sequencing a line-emitting loop body over a list, propagating failure
(a raised exception aborts the whole function). -/
def seqLines : List α → (α → Option (List String)) → Option (List String)
  | [], _ => some []
  | x :: xs, f =>
    (f x).bind fun a =>
    (seqLines xs f).bind fun b =>
    some (a ++ b)

/-! ## The section emitters of `generate_agent_sql`
(`src/get_agents_ddl/cortex_agents_ddl.py` lines 92-237; `src/SiS_Version.py`
lines 37-234 is the same logic). -/

/-- Lines 101-106: the `models:` section. -/
def modelsSection (agent_spec : JVal) : Option (List String) :=
  (pyMemLookup agent_spec "models").bind fun mvo =>
  match mvo with
  | none => some []
  | some mv =>
    if pyTruthy mv then
      (pyItems mv).bind fun items =>
      some (("models:" :: items.filterMap (fun kv =>
        match kv.2 with
        | .null => none
        | v => some ("  " ++ kv.1 ++ ": \"" ++ pyStr v ++ "\""))) ++ [""])
    else some []

/-- Lines 117-123: the `sample_questions:` block (entries accepted either as
an object holding a `question` key or as a plain string; anything else is
skipped). -/
def sampleQuestionLines (sq : JVal) : Option (List String) :=
  if pyTruthy sq then
    (pyIter sq).bind fun qs =>
    some ("  sample_questions:" :: qs.filterMap (fun q =>
      match q with
      | .obj qf =>
        match lookupField qf "question" with
        | some qv => some ("    - question: \"" ++ pyStr qv ++ "\"")
        | none => none
      | .str s => some ("    - question: \"" ++ s ++ "\"")
      | _ => none))
  else some []

/-- Lines 108-124: the `instructions:` section. -/
def instructionsSection (agent_spec : JVal) : Option (List String) :=
  (pyMemLookup agent_spec "instructions").bind fun ivo =>
  match ivo with
  | none => some []
  | some iv =>
    if pyTruthy iv then
      (pyGet iv "response" .null).bind fun resp =>
      (pyGet iv "orchestration" .null).bind fun orch =>
      (pyGet iv "system" .null).bind fun sys =>
      (pyGet iv "sample_questions" .null).bind fun sq =>
      (sampleQuestionLines sq).bind fun sqLines =>
      some ((["instructions:"] ++
        (if pyTruthy resp then ["  response: \"" ++ pyStr resp ++ "\""] else []) ++
        (if pyTruthy orch then ["  orchestration: \"" ++ pyStr orch ++ "\""] else []) ++
        (if pyTruthy sys then ["  system: \"" ++ pyStr sys ++ "\""] else []) ++
        sqLines) ++ [""])
    else some []

/-- Lines 134-142: the tool description, truncated to 300 and switched to a
block literal when the truncated text exceeds 200 characters or is
multi-line.  Python's `len` and `in` also accept list and dict descriptions;
a truthy non-string description that survives them is interpolated via
`repr`, and one that reaches `[:300]`-slicing-then-`rfind` or `.split` raises
— both modelled faithfully below. -/
def toolDescriptionLines (v : JVal) : Option (List String) :=
  if pyTruthy v = false then some []
  else match v with
  | .str s =>
    let t := truncate_description s 300
    if 200 < t.length ∨ '\n' ∈ t.data then
      some ("      description: |" :: (splitOnNl t.data).map (fun l => "        " ++ (⟨l⟩ : String)))
    else some ["      description: \"" ++ t ++ "\""]
  | .arr l =>
    if l.length ≤ 300 then
      if 200 < l.length ∨ l.any (fun e => pyEqS e "\n") then none
      else some ["      description: \"" ++ pyStr (.arr l) ++ "\""]
    else none
  | .obj fs =>
    if fs.length ≤ 300 then
      if 200 < fs.length ∨ containsKey fs "\n" then none
      else some ["      description: \"" ++ pyStr (.obj fs) ++ "\""]
    else none
  | _ => none

/-- Lines 151-158: an input-schema property description, truncated to 150,
block literal beyond 80 characters or on a line break.  A falsy value of any
type passes through `truncate_description`'s `if not description` guard and
is emitted as an empty quoted string. -/
def propDescriptionLines (v : JVal) : Option (List String) :=
  if pyTruthy v = false then some ["            description: \"\""]
  else match v with
  | .str s =>
    let t := truncate_description s 150
    if '\n' ∈ t.data ∨ 80 < t.length then
      some ("            description: |" :: (splitOnNl t.data).map (fun l => "              " ++ (⟨l⟩ : String)))
    else some ["            description: \"" ++ t ++ "\""]
  | .arr l =>
    if l.length ≤ 150 then
      if l.any (fun e => pyEqS e "\n") ∨ 80 < l.length then none
      else some ["            description: \"" ++ pyStr (.arr l) ++ "\""]
    else none
  | .obj fs =>
    if fs.length ≤ 150 then
      if containsKey fs "\n" ∨ 80 < fs.length then none
      else some ["            description: \"" ++ pyStr (.obj fs) ++ "\""]
    else none
  | _ => none

/-- Lines 149-159: one entry of the `properties:` block — the property name,
the optional description (first), then the `type:` line, bare, defaulting to
`string`. -/
def propertyLines (kv : String × JVal) : Option (List String) :=
  (pyMemLookup kv.2 "description").bind fun dvo =>
  (match dvo with
   | none => some []
   | some dv => propDescriptionLines dv).bind fun descPart =>
  (pyGet kv.2 "type" (.str "string")).bind fun tvv =>
  some ((("          " ++ kv.1 ++ ":") :: descPart) ++ ["            type: " ++ pyStr tvv])

/-- Lines 143-163: the `input_schema:` block of a tool, given the
`schema_obj` value — the bare `type: object` line, the properties, and the
`required:` list. -/
def inputSchemaLines (so : JVal) : Option (List String) :=
  (pyMemLookup so "properties").bind fun po =>
  (match po with
   | none => some []
   | some props =>
     (pyItems props).bind fun items =>
     (seqLines items propertyLines).bind fun pls =>
     some ("        properties:" :: pls)).bind fun propPart =>
  (pyMemLookup so "required").bind fun ro =>
  (match ro with
   | none => some []
   | some rv =>
     if pyTruthy rv then
       (pyIter rv).bind fun rs =>
       some ("        required:" :: rs.map (fun r => "          - " ++ pyStr r))
     else some []).bind fun reqPart =>
  some (("      input_schema:" :: "        type: object" :: propPart) ++ reqPart)

/-- Lines 129-164: one entry of the `tools:` section (a tool without a
`tool_spec` key emits nothing). -/
def toolEntryLines (tool : JVal) : Option (List String) :=
  (pyMemLookup tool "tool_spec").bind fun tso =>
  match tso with
  | none => some []
  | some ts =>
    (pyGet ts "type" (.str "")).bind fun tv =>
    (pyGet ts "name" (.str "")).bind fun nv =>
    (pyGet ts "description" (.str "")).bind fun descv =>
    (toolDescriptionLines descv).bind fun descLines =>
    ((pyMemLookup ts "input_schema").bind fun soo =>
      match soo with
      | none => some []
      | some so => inputSchemaLines so).bind fun schemaLines =>
    some ((("  - tool_spec:" ::
            ("      type: \"" ++ pyStr tv ++ "\"") ::
            ("      name: \"" ++ pyStr nv ++ "\"") :: descLines) ++ schemaLines) ++ [""])

/-- Lines 126-164: the `tools:` section. -/
def toolsSection (agent_spec : JVal) : Option (List String) :=
  (pyMemLookup agent_spec "tools").bind fun tvo =>
  match tvo with
  | none => some []
  | some tv =>
    if pyTruthy tv then
      (pyIter tv).bind fun tools =>
      (seqLines tools toolEntryLines).bind fun tls =>
      some ("tools:" :: tls)
    else some []

/-- Lines 179-199: the shape classification of a tool resource — a fixed
field order chosen by precedence: `type` equal to `function` or `procedure`
first, then presence of `semantic_model_file`, then presence of `id_column`,
else a fallback order. -/
def fieldOrder (rf : List (String × JVal)) : List String :=
  if pyEqS ((lookupField rf "type").getD (.str "")) "function" then
    ["identifier", "name", "type"]
  else if pyEqS ((lookupField rf "type").getD (.str "")) "procedure" then
    ["identifier", "name", "type"]
  else if containsKey rf "semantic_model_file" then ["semantic_model_file"]
  else if containsKey rf "id_column" then ["id_column", "max_results", "name", "title_column"]
  else ["identifier", "name", "type", "semantic_model_file", "id_column", "max_results",
        "title_column", "search_service", "filter"]

/-- Lines 200-215: emission of one resource field — quoted strings, bare
integers (Python `bool` being an `int`, `True`/`False` are emitted bare),
dicts recursed one level with quoted leaves; lists and nulls emit nothing. -/
def resourceFieldValueLines (field : String) (v : JVal) : List String :=
  match v with
  | .str s => ["    " ++ field ++ ": \"" ++ s ++ "\""]
  | .int n => ["    " ++ field ++ ": " ++ pyStr (.int n)]
  | .bool b => ["    " ++ field ++ ": " ++ pyStr (.bool b)]
  | .obj kvs =>
    ("    " ++ field ++ ":") :: kvs.flatMap (fun kv2 =>
      match kv2.2 with
      | .obj sub =>
        ("      " ++ kv2.1 ++ ":") ::
          sub.map (fun skv => "        " ++ skv.1 ++ ": \"" ++ pyStr skv.2 ++ "\"")
      | w => ["      " ++ kv2.1 ++ ": \"" ++ pyStr w ++ "\""])
  | _ => []

/-- Lines 200-215: the `for field in field_order` loop, over a given order
(each field emitted when present and not `execution_environment`). -/
def fieldLoop (order : List String) (rf : List (String × JVal)) : List String :=
  order.flatMap (fun field =>
    if field = "execution_environment" then []
    else match lookupField rf field with
      | some v => resourceFieldValueLines field v
      | none => [])

/-- Lines 179-215: the classified-field emission of one resource. -/
def classifiedFieldLines (rf : List (String × JVal)) : List String :=
  fieldLoop (fieldOrder rf) rf

/-- Lines 170-178: the `execution_environment:` block, given its value —
fixed field order `query_timeout` (bare), `type` (quoted), `warehouse`
(quoted), present fields only. -/
def execEnvLines (ee : JVal) : Option (List String) :=
  (pyMemLookup ee "query_timeout").bind fun qto =>
  (pyMemLookup ee "type").bind fun tyo =>
  (pyMemLookup ee "warehouse").bind fun who =>
  some ("    execution_environment:" ::
    (match qto with | some v => ["      query_timeout: " ++ pyStr v] | none => []) ++
    (match tyo with | some v => ["      type: \"" ++ pyStr v ++ "\""] | none => []) ++
    (match who with | some v => ["      warehouse: \"" ++ pyStr v ++ "\""] | none => []))

/-- Lines 168-216: one entry of the `tool_resources:` section — the tool
name, the optional `execution_environment` block, the classified fields, and
a trailing blank entry. -/
def resourceEntryLines (kv : String × JVal) : Option (List String) :=
  ((pyMemLookup kv.2 "execution_environment").bind fun eeo =>
    match eeo with
    | none => some []
    | some ee => execEnvLines ee).bind fun execLines =>
  match kv.2 with
  | .obj rf => some ((("  " ++ kv.1 ++ ":") :: execLines ++ classifiedFieldLines rf) ++ [""])
  | _ => none

/-- Lines 166-216: the `tool_resources:` section. -/
def toolResourcesSection (agent_spec : JVal) : Option (List String) :=
  (pyMemLookup agent_spec "tool_resources").bind fun trvo =>
  match trvo with
  | none => some []
  | some trv =>
    if pyTruthy trv then
      (pyItems trv).bind fun items =>
      (seqLines items resourceEntryLines).bind fun rls =>
      some ("tool_resources:" :: rls)
    else some []

/-- Lines 218-227: the `orchestration:` section (emitted only for a
dict-shaped `orchestration` holding a truthy `budget`; no trailing blank
line). -/
def orchestrationSection (agent_spec : JVal) : Option (List String) :=
  (pyMemLookup agent_spec "orchestration").bind fun ovo =>
  match ovo with
  | none => some []
  | some ov =>
    if pyTruthy ov then
      match ov with
      | .obj ofs =>
        match lookupField ofs "budget" with
        | some bv =>
          if pyTruthy bv then
            (pyMemLookup bv "seconds").bind fun so =>
            (pyMemLookup bv "tokens").bind fun tko =>
            some ("orchestration:" :: "  budget:" ::
              (match so with | some sv => ["    seconds: " ++ pyStr sv] | none => []) ++
              (match tko with | some tv => ["    tokens: " ++ pyStr tv] | none => []))
          else some []
        | none => some []
      | _ => some []
    else some []

/-- Lines 229-233: the `profile:` section (skipping falsy values; no
trailing blank line). -/
def profileSection (agent_spec : JVal) : Option (List String) :=
  (pyMemLookup agent_spec "profile").bind fun pvo =>
  match pvo with
  | none => some []
  | some pv =>
    if pyTruthy pv then
      (pyItems pv).bind fun items =>
      some ("profile:" :: items.filterMap (fun kv =>
        if pyTruthy kv.2 then some ("  " ++ kv.1 ++ ": \"" ++ pyStr kv.2 ++ "\"") else none))
    else some []

/-- Lines 99-233: the whole YAML-like body, as the list of emitted entries. -/
def yamlLines (agent_spec : JVal) : Option (List String) :=
  (modelsSection agent_spec).bind fun m =>
  (instructionsSection agent_spec).bind fun i =>
  (toolsSection agent_spec).bind fun t =>
  (toolResourcesSection agent_spec).bind fun r =>
  (orchestrationSection agent_spec).bind fun o =>
  (profileSection agent_spec).bind fun p =>
  some (m ++ i ++ t ++ r ++ o ++ p)

/-- Python `comment.replace("'", "''")`. -/
def pyEscapeSQuote (s : String) : String :=
  ⟨s.data.flatMap (fun c => if c = '\'' then ['\'', '\''] else [c])⟩

/-- An apostrophe, as a string. -/
def apos : String := ⟨['\'']⟩

/-- Embedding of `generate_agent_sql`
(`src/get_agents_ddl/cortex_agents_ddl.py` lines 76-237).  The `json.loads`
call is modelled by the `parsed` argument: `Except.error e` is a
`json.JSONDecodeError` whose message is `e`, in which case the function
returns only the SQL comment line; `Except.ok spec` is the parsed value.
`none` models an uncaught Python exception (nothing is returned). -/
def generate_agent_sql (agent_name database schema : String)
    (parsed : Except String JVal) (comment : String) : Option String :=
  match parsed with
  | .error e => some ("-- Error: Invalid JSON specification - " ++ e)
  | .ok agent_spec =>
    (yamlLines agent_spec).bind fun yc =>
    some (joinNl
      ((["CREATE OR REPLACE AGENT " ++ database ++ "." ++ schema ++ "." ++ agent_name] ++
        (if comment = "" then [] else ["COMMENT = " ++ apos ++ pyEscapeSQuote comment ++ apos]) ++
        ["FROM SPECIFICATION", "$$"]) ++
       [joinNl yc, "$$;"]))

namespace CortexAgentBuilder

/-- The drifted copy in `src/cortex_agent_builder.py` (lines 387-401) does
not classify resources: a single fixed field order that does include
`semantic_view`. -/
def field_order : List String :=
  ["identifier", "name", "type", "semantic_model_file", "semantic_view",
   "id_column", "max_results", "title_column"]

/-- `src/cortex_agent_builder.py` line 398: embedded double quotes are
escaped in this copy. -/
def escapeDq (s : String) : String :=
  ⟨s.data.flatMap (fun c => if c = '"' then ['\\', '"'] else [c])⟩

/-- Lines 393-401: field emission in the builder copy — quoted escaped
strings and bare integers only (dict values are dropped here). -/
def resourceFieldValueLines (field : String) (v : JVal) : List String :=
  match v with
  | .str s => ["    " ++ field ++ ": \"" ++ escapeDq s ++ "\""]
  | .int n => ["    " ++ field ++ ": " ++ pyStr (.int n)]
  | .bool b => ["    " ++ field ++ ": " ++ pyStr (.bool b)]
  | _ => []

/-- Lines 391-401: the classified-field loop of the builder copy. -/
def classifiedFieldLines (rf : List (String × JVal)) : List String :=
  field_order.flatMap (fun field =>
    if field = "execution_environment" then []
    else match lookupField rf field with
      | some v => resourceFieldValueLines field v
      | none => [])

end CortexAgentBuilder

/-! ## Helper lemmas for the serializer theorems -/

theorem not_prefix_append_of_ne (p c rest : List Char) (i : Nat)
    (hip : i < p.length) (hic : i < c.length) (hne : p.get? i ≠ c.get? i) :
    ¬ p <+: (c ++ rest) := by
  rintro ⟨t, ht⟩
  apply hne
  have h1 : (p ++ t).get? i = p.get? i := List.get?_append hip
  have h2 : (c ++ rest).get? i = c.get? i := List.get?_append hic
  rw [← h1, ht, h2]

theorem splitOnNl_append (a b : List Char) (h : '\n' ∉ a) :
    splitOnNl (a ++ '\n' :: b) = a :: splitOnNl b := by
  induction a with
  | nil => simp [splitOnNl]
  | cons c cs ih =>
    simp only [List.mem_cons, not_or] at h
    simp only [List.cons_append, splitOnNl, List.append_eq]
    rw [if_neg (fun hc => h.1 hc.symm), ih h.2]

theorem append_ne_empty_left (a b : String) (ha : a.data ≠ []) : a ++ b ≠ "" := by
  intro h
  have h2 := congrArg String.data h
  rw [String.data_append] at h2
  exact ha (List.append_eq_nil.mp h2).1

theorem string_append_ne (cst e b : String)
    (h1 : 1 ≤ cst.data.length) (h : cst.data.take 1 ≠ b.data.take 1) : cst ++ e ≠ b := by
  intro hEq
  have h2 := congrArg String.data hEq
  rw [String.data_append] at h2
  apply h
  rw [← List.take_append_of_le_length h1, h2]

theorem ne_of_take1 (a b : String) (h : a.data.take 1 ≠ b.data.take 1) : a ≠ b :=
  fun he => h (congrArg (fun z => z.data.take 1) he)

theorem no_nl_append (a b : String) (ha : '\n' ∉ a.data) (hb : '\n' ∉ b.data) :
    '\n' ∉ (a ++ b).data := by
  rw [String.data_append]
  intro h
  rcases List.mem_append.mp h with h | h
  · exact ha h
  · exact hb h

/-- Success case of the assembler: the header, optional comment clause,
`FROM SPECIFICATION`, delimiters, joined body and terminator. -/
theorem generate_agent_sql_ok (n d s c : String) (spec : JVal) (yc : List String)
    (h : yamlLines spec = some yc) :
    generate_agent_sql n d s (.ok spec) c =
      some (joinNl
        ((["CREATE OR REPLACE AGENT " ++ d ++ "." ++ s ++ "." ++ n] ++
          (if c = "" then [] else ["COMMENT = " ++ apos ++ pyEscapeSQuote c ++ apos]) ++
          ["FROM SPECIFICATION", "$$"]) ++
         [joinNl yc, "$$;"])) := by
  simp only [generate_agent_sql]
  rw [h]
  rfl

/-- C3: a parse error yields exactly one output line: it begins with the SQL
comment marker `--`, contains the substring `Error:`, and none of the lines of
the output (there is only the one) is a `CREATE` header line, a
`FROM SPECIFICATION` line, a `$$` delimiter, or the `$$;` terminator.  The
hypothesis that the decoder message has no newline holds for every
`json.JSONDecodeError` message. -/
theorem parse_error_single_comment_line (n d s c e : String) (hnl : '\n' ∉ e.data) :
    ∃ out, generate_agent_sql n d s (.error e) c = some out ∧
      pySplitNl out = [out] ∧
      out.data.take 3 = "-- ".data ∧
      ("Error:".data <:+: out.data) ∧
      ∀ l ∈ pySplitNl out,
        ¬ ("CREATE".data <+: l.data) ∧ l ≠ "FROM SPECIFICATION" ∧ l ≠ "$$" ∧ l ≠ "$$;" := by
  refine ⟨"-- Error: Invalid JSON specification - " ++ e, rfl, ?_, ?_, ?_, ?_⟩
  case _ =>
    unfold pySplitNl
    rw [String.data_append, splitOnNl_of_no_nl]
    · rfl
    · intro hmem
      rcases List.mem_append.mp hmem with h | h
      · exact absurd h (by decide)
      · exact hnl h
  case _ =>
    rw [String.data_append, List.take_append_of_le_length (by decide)]
    decide
  case _ =>
    refine ⟨"-- ".data, " Invalid JSON specification - ".data ++ e.data, ?_⟩
    rw [String.data_append]
    have hconst : ("-- ".data ++ "Error:".data) ++ " Invalid JSON specification - ".data =
        "-- Error: Invalid JSON specification - ".data := by decide
    rw [← hconst]
    simp [List.append_assoc]
  case _ =>
    intro l hl
    unfold pySplitNl at hl
    rw [String.data_append, splitOnNl_of_no_nl] at hl
    · simp only [List.map_cons, List.map_nil, List.mem_singleton] at hl
      subst hl
      refine ⟨?_, ?_, ?_, ?_⟩
      · show ¬ "CREATE".data <+: ("-- Error: Invalid JSON specification - ".data ++ e.data)
        exact not_prefix_append_of_ne _ _ _ 0 (by decide) (by decide) (by decide)
      · exact string_append_ne _ _ _ (by decide) (by decide)
      · exact string_append_ne _ _ _ (by decide) (by decide)
      · exact string_append_ne _ _ _ (by decide) (by decide)
    · intro hmem
      rcases List.mem_append.mp hmem with h | h
      · exact absurd h (by decide)
      · exact hnl h

/-- C8: with every optional top-level field absent, the emitters produce no
entries at all (in particular no section heading lines), and the output is
exactly the `CREATE` header, the `FROM SPECIFICATION` line, the opening `$$`,
the empty body line, and the closing `$$;` terminator. -/
theorem empty_spec_render (n d s : String) (fields : List (String × JVal))
    (h : ∀ k ∈ (["models", "instructions", "tools", "tool_resources", "orchestration",
        "profile"] : List String), lookupField fields k = none)
    (hn : '\n' ∉ n.data) (hd : '\n' ∉ d.data) (hs : '\n' ∉ s.data) :
    yamlLines (.obj fields) = some [] ∧
    generate_agent_sql n d s (.ok (.obj fields)) "" =
      some (("CREATE OR REPLACE AGENT " ++ d ++ "." ++ s ++ "." ++ n) ++
        "\nFROM SPECIFICATION\n$$\n\n$$;") ∧
    pySplitNl (("CREATE OR REPLACE AGENT " ++ d ++ "." ++ s ++ "." ++ n) ++
        "\nFROM SPECIFICATION\n$$\n\n$$;") =
      ["CREATE OR REPLACE AGENT " ++ d ++ "." ++ s ++ "." ++ n,
       "FROM SPECIFICATION", "$$", "", "$$;"] ∧
    ∀ l ∈ (["CREATE OR REPLACE AGENT " ++ d ++ "." ++ s ++ "." ++ n,
       "FROM SPECIFICATION", "$$", "", "$$;"] : List String),
      l ∉ (["models:", "instructions:", "tools:", "tool_resources:", "orchestration:",
        "profile:"] : List String) := by
  have hyaml : yamlLines (.obj fields) = some [] := by
    simp [yamlLines, modelsSection, instructionsSection, toolsSection, toolResourcesSection,
      orchestrationSection, profileSection, pyMemLookup, Option.bind,
      h "models" (by simp), h "instructions" (by simp), h "tools" (by simp),
      h "tool_resources" (by simp), h "orchestration" (by simp), h "profile" (by simp)]
  have hgen : generate_agent_sql n d s (.ok (.obj fields)) "" =
      some (("CREATE OR REPLACE AGENT " ++ d ++ "." ++ s ++ "." ++ n) ++
        "\nFROM SPECIFICATION\n$$\n\n$$;") := by
    rw [generate_agent_sql_ok n d s "" _ [] hyaml]
    congr 1
    simp only [if_pos rfl, List.append_nil, List.nil_append, List.cons_append,
      List.singleton_append, joinNl]
    rw [String.append_assoc]
    congr 1
  have hhead : '\n' ∉ ("CREATE OR REPLACE AGENT " ++ d ++ "." ++ s ++ "." ++ n).data :=
    no_nl_append _ _ (no_nl_append _ _ (no_nl_append _ _ (no_nl_append _ _
      (no_nl_append _ _ (by decide) hd) (by decide)) hs) (by decide)) hn
  have hsplit : pySplitNl (("CREATE OR REPLACE AGENT " ++ d ++ "." ++ s ++ "." ++ n) ++
      "\nFROM SPECIFICATION\n$$\n\n$$;") =
      ["CREATE OR REPLACE AGENT " ++ d ++ "." ++ s ++ "." ++ n,
       "FROM SPECIFICATION", "$$", "", "$$;"] := by
    unfold pySplitNl
    rw [String.data_append,
      show ("\nFROM SPECIFICATION\n$$\n\n$$;" : String).data =
        '\n' :: ("FROM SPECIFICATION\n$$\n\n$$;" : String).data from by decide,
      splitOnNl_append _ _ hhead,
      show splitOnNl ("FROM SPECIFICATION\n$$\n\n$$;" : String).data =
        [("FROM SPECIFICATION" : String).data, ("$$" : String).data, [],
         ("$$;" : String).data] from by decide]
    rfl
  refine ⟨hyaml, hgen, hsplit, ?_⟩
  intro l hl
  simp only [List.mem_cons, List.not_mem_nil, or_false] at hl
  rcases hl with hl | hl | hl | hl | hl
  · subst hl
    have hC : ("CREATE OR REPLACE AGENT " ++ d ++ "." ++ s ++ "." ++ n).data.take 1 =
        ['C'] := by
      simp only [String.data_append, List.append_assoc]
      rw [List.take_append_of_le_length (by decide)]
      decide
    intro hcon
    simp only [List.mem_cons, List.not_mem_nil, or_false] at hcon
    rcases hcon with hc | hc | hc | hc | hc | hc <;>
      exact absurd hc (ne_of_take1 _ _ (by rw [hC]; decide))
  all_goals subst hl
  all_goals decide

/-- Witness for `empty_spec_render` at concrete names and the empty
specification object. -/
theorem empty_spec_render_witness :
    yamlLines (.obj []) = some [] ∧
    generate_agent_sql "A" "D" "S" (.ok (.obj [])) "" =
      some (("CREATE OR REPLACE AGENT " ++ "D" ++ "." ++ "S" ++ "." ++ "A") ++
        "\nFROM SPECIFICATION\n$$\n\n$$;") ∧
    pySplitNl (("CREATE OR REPLACE AGENT " ++ "D" ++ "." ++ "S" ++ "." ++ "A") ++
        "\nFROM SPECIFICATION\n$$\n\n$$;") =
      ["CREATE OR REPLACE AGENT " ++ "D" ++ "." ++ "S" ++ "." ++ "A",
       "FROM SPECIFICATION", "$$", "", "$$;"] ∧
    ∀ l ∈ (["CREATE OR REPLACE AGENT " ++ "D" ++ "." ++ "S" ++ "." ++ "A",
       "FROM SPECIFICATION", "$$", "", "$$;"] : List String),
      l ∉ (["models:", "instructions:", "tools:", "tool_resources:", "orchestration:",
        "profile:"] : List String) :=
  empty_spec_render "A" "D" "S" []
    (by intro k hk; rfl) (by decide) (by decide) (by decide)

theorem append_ne_empty_right (a b : String) (hb : b.data ≠ []) : a ++ b ≠ "" := by
  intro h
  have h2 := congrArg String.data h
  rw [String.data_append] at h2
  exact hb (List.append_eq_nil.mp h2).2

/-- C6 counterexample: a specification holding only `orchestration` and
`profile` renders with no blank line at all — in particular no blank line
follows the emitted `orchestration` section (the very next entry is
`profile:`) nor the emitted `profile` section. -/
theorem blank_separator_counterexample :
    yamlLines (.obj [("orchestration", .obj [("budget", .obj [("seconds", .int 30)])]),
        ("profile", .obj [("display_name", .str "D")])]) =
      some ["orchestration:", "  budget:", "    seconds: 30", "profile:",
        "  display_name: \"D\""] ∧
    "" ∉ (["orchestration:", "  budget:", "    seconds: 30", "profile:",
        "  display_name: \"D\""] : List String) := by
  refine ⟨by decide, by decide⟩

/-- C6 (amended): a blank separator entry terminates the `models` and
`instructions` sections whenever they are emitted, and terminates every
emitted `tool_spec` entry and every `tool_resources` entry (so those two
sections end in a blank line whenever their last entry emits lines); but the
`orchestration` and `profile` sections contain no blank line and are not
followed by one. -/
theorem blank_separator_amended :
    (∀ spec ls, modelsSection spec = some ls → ls ≠ [] → ls.getLast? = some "") ∧
    (∀ spec ls, instructionsSection spec = some ls → ls ≠ [] → ls.getLast? = some "") ∧
    (∀ t ls, toolEntryLines t = some ls → ls ≠ [] → ls.getLast? = some "") ∧
    (∀ kv ls, resourceEntryLines kv = some ls → ls.getLast? = some "") ∧
    (∀ spec ls, orchestrationSection spec = some ls → "" ∉ ls) ∧
    (∀ spec ls, profileSection spec = some ls → "" ∉ ls) := by
  refine ⟨?_, ?_, ?_, ?_, ?_, ?_⟩
  · intro spec ls h hne
    unfold modelsSection at h
    rw [Option.bind_eq_some] at h
    obtain ⟨o, ho, h⟩ := h
    cases o with
    | none => exact absurd (Option.some_inj.mp h).symm hne
    | some mv =>
      dsimp only at h
      split at h
      · rw [Option.bind_eq_some] at h
        obtain ⟨items, hi, h⟩ := h
        obtain rfl := Option.some_inj.mp h
        exact List.getLast?_concat _
      · exact absurd (Option.some_inj.mp h).symm hne
  · intro spec ls h hne
    unfold instructionsSection at h
    rw [Option.bind_eq_some] at h
    obtain ⟨o, ho, h⟩ := h
    cases o with
    | none => exact absurd (Option.some_inj.mp h).symm hne
    | some iv =>
      dsimp only at h
      split at h
      · rw [Option.bind_eq_some] at h
        obtain ⟨resp, hresp, h⟩ := h
        rw [Option.bind_eq_some] at h
        obtain ⟨orch, horch, h⟩ := h
        rw [Option.bind_eq_some] at h
        obtain ⟨sys, hsys, h⟩ := h
        rw [Option.bind_eq_some] at h
        obtain ⟨sq2, hsq2, h⟩ := h
        rw [Option.bind_eq_some] at h
        obtain ⟨sqLines, hsqL, h⟩ := h
        obtain rfl := Option.some_inj.mp h
        exact List.getLast?_concat _
      · exact absurd (Option.some_inj.mp h).symm hne
  · intro t ls h hne
    unfold toolEntryLines at h
    rw [Option.bind_eq_some] at h
    obtain ⟨o, ho, h⟩ := h
    cases o with
    | none => exact absurd (Option.some_inj.mp h).symm hne
    | some ts =>
      dsimp only at h
      rw [Option.bind_eq_some] at h
      obtain ⟨tv, htv, h⟩ := h
      rw [Option.bind_eq_some] at h
      obtain ⟨nv, hnv, h⟩ := h
      rw [Option.bind_eq_some] at h
      obtain ⟨descv, hdescv, h⟩ := h
      rw [Option.bind_eq_some] at h
      obtain ⟨descLines, hdescL, h⟩ := h
      rw [Option.bind_eq_some] at h
      obtain ⟨schemaLines, hschema, h⟩ := h
      obtain rfl := Option.some_inj.mp h
      exact List.getLast?_concat _
  · intro kv ls h
    unfold resourceEntryLines at h
    rw [Option.bind_eq_some] at h
    obtain ⟨execLines, hexec, h⟩ := h
    split at h
    · obtain rfl := Option.some_inj.mp h
      exact List.getLast?_concat _
    · exact absurd h (by simp)
  · intro spec ls h
    unfold orchestrationSection at h
    rw [Option.bind_eq_some] at h
    obtain ⟨o, ho, h⟩ := h
    cases o with
    | none =>
      obtain rfl := Option.some_inj.mp h
      exact List.not_mem_nil _
    | some ov =>
      dsimp only at h
      split at h
      · split at h
        · split at h
          · split at h
            · rw [Option.bind_eq_some] at h
              obtain ⟨so, hso, h⟩ := h
              rw [Option.bind_eq_some] at h
              obtain ⟨tko, htko, h⟩ := h
              obtain rfl := Option.some_inj.mp h
              intro hmem
              rw [List.mem_append, List.mem_cons, List.mem_cons] at hmem
              rcases hmem with (hc | hc | hc) | hc
              · exact absurd hc (by decide)
              · exact absurd hc (by decide)
              · cases so with
                | none => simp at hc
                | some sv =>
                  simp only [List.mem_singleton] at hc
                  exact append_ne_empty_left _ _ (by decide) hc.symm
              · cases tko with
                | none => simp at hc
                | some tv =>
                  simp only [List.mem_singleton] at hc
                  exact append_ne_empty_left _ _ (by decide) hc.symm
            · obtain rfl := Option.some_inj.mp h
              exact List.not_mem_nil _
          · obtain rfl := Option.some_inj.mp h
            exact List.not_mem_nil _
        · obtain rfl := Option.some_inj.mp h
          exact List.not_mem_nil _
      · obtain rfl := Option.some_inj.mp h
        exact List.not_mem_nil _
  · intro spec ls h
    unfold profileSection at h
    rw [Option.bind_eq_some] at h
    obtain ⟨o, ho, h⟩ := h
    cases o with
    | none =>
      obtain rfl := Option.some_inj.mp h
      exact List.not_mem_nil _
    | some pv =>
      dsimp only at h
      split at h
      · rw [Option.bind_eq_some] at h
        obtain ⟨items, hi, h⟩ := h
        obtain rfl := Option.some_inj.mp h
        intro hmem
        simp only [List.mem_cons] at hmem
        rcases hmem with hc | hc
        · exact absurd hc (by decide)
        · obtain ⟨kv2, hkv2, hkv⟩ := List.mem_filterMap.mp hc
          split at hkv
          · simp only [Option.some_inj] at hkv
            exact append_ne_empty_right _ _ (by decide) hkv
          · exact absurd hkv (by simp)
      · obtain rfl := Option.some_inj.mp h
        exact List.not_mem_nil _

/-- Witness for `blank_separator_amended`: each conjunct instantiated at a
concrete specification. -/
theorem blank_separator_amended_witness :
    (["models:", "  a: \"m\"", ""] : List String).getLast? = some "" ∧
    (["instructions:", "  response: \"r\"", ""] : List String).getLast? = some "" ∧
    (["  - tool_spec:", "      type: \"t\"", "      name: \"n\"", ""] :
      List String).getLast? = some "" ∧
    (["  T:", "    id_column: \"I\"", ""] : List String).getLast? = some "" ∧
    "" ∉ (["orchestration:", "  budget:", "    seconds: 30"] : List String) ∧
    "" ∉ (["profile:", "  display_name: \"D\""] : List String) :=
  ⟨blank_separator_amended.1 (.obj [("models", .obj [("a", .str "m")])]) _ rfl (by decide),
   blank_separator_amended.2.1 (.obj [("instructions", .obj [("response", .str "r")])]) _
     rfl (by decide),
   blank_separator_amended.2.2.1 (.obj [("tool_spec", .obj [("type", .str "t"),
     ("name", .str "n")])]) _ rfl (by decide),
   blank_separator_amended.2.2.2.1 ("T", .obj [("id_column", .str "I")]) _ rfl,
   blank_separator_amended.2.2.2.2.1
     (.obj [("orchestration", .obj [("budget", .obj [("seconds", .int 30)])])]) _ rfl,
   blank_separator_amended.2.2.2.2.2
     (.obj [("profile", .obj [("display_name", .str "D")])]) _ rfl⟩

/-- Witness for `parse_error_single_comment_line` at a concrete decoder
message. -/
theorem parse_error_single_comment_line_witness :
    ∃ out, generate_agent_sql "A" "D" "S"
        (.error "Expecting value: line 1 column 1 (char 0)") "" = some out ∧
      pySplitNl out = [out] ∧
      out.data.take 3 = "-- ".data ∧
      ("Error:".data <:+: out.data) ∧
      ∀ l ∈ pySplitNl out,
        ¬ ("CREATE".data <+: l.data) ∧ l ≠ "FROM SPECIFICATION" ∧ l ≠ "$$" ∧ l ≠ "$$;" :=
  parse_error_single_comment_line "A" "D" "S" ""
    "Expecting value: line 1 column 1 (char 0)" (by decide)

/-! ## Lemmas on the resource-field emission -/

theorem pyEqS_iff (v : JVal) (s : String) : pyEqS v s = true ↔ v = .str s := by
  cases v <;> simp [pyEqS]

theorem str_ext {a b : String} (h : a.data = b.data) : a = b := by
  cases a
  cases b
  cases h
  rfl

theorem split_colon_quote (pre f s : String) :
    pre ++ f ++ ": \"" ++ s ++ "\"" = (pre ++ f ++ ":") ++ (" \"" ++ s ++ "\"") := by
  apply str_ext
  simp only [String.data_append, List.append_assoc]
  simp

theorem split_colon_space (pre f s : String) :
    pre ++ f ++ ": " ++ s = (pre ++ f ++ ":") ++ (" " ++ s) := by
  apply str_ext
  simp only [String.data_append, List.append_assoc]
  simp

/-- Every entry emitted for one resource field either extends
`"    <field>:"` or is a nested line beginning with six spaces. -/
theorem resourceFieldValueLines_shape (field : String) (v : JVal) (line : String)
    (h : line ∈ resourceFieldValueLines field v) :
    (∃ rest : String, line = ("    " ++ field ++ ":") ++ rest) ∨
    (∃ rest : String, line = "      " ++ rest) := by
  cases v with
  | str s =>
    simp only [resourceFieldValueLines, List.mem_singleton] at h
    subst h
    exact Or.inl ⟨" \"" ++ s ++ "\"", split_colon_quote _ _ _⟩
  | int n =>
    simp only [resourceFieldValueLines, List.mem_singleton] at h
    subst h
    exact Or.inl ⟨" " ++ pyStr (.int n), split_colon_space _ _ _⟩
  | bool b =>
    simp only [resourceFieldValueLines, List.mem_singleton] at h
    subst h
    exact Or.inl ⟨" " ++ pyStr (.bool b), split_colon_space _ _ _⟩
  | obj kvs =>
    simp only [resourceFieldValueLines, List.mem_cons] at h
    rcases h with h | h
    · subst h
      exact Or.inl ⟨"", by simp⟩
    · obtain ⟨kv2, hkv2, hm⟩ := List.mem_flatMap.mp h
      rcases hkv : kv2.2 with s2 | n2 | b2 | _ | l2 | sub
      all_goals rw [hkv] at hm
      case obj =>
        simp only [List.mem_cons] at hm
        rcases hm with hm | hm
        · subst hm
          exact Or.inr ⟨kv2.1 ++ ":", by simp [String.append_assoc]⟩
        · obtain ⟨skv, hskv, hline⟩ := List.mem_map.mp hm
          subst hline
          refine Or.inr ⟨"  " ++ skv.1 ++ ": \"" ++ pyStr skv.2 ++ "\"", ?_⟩
          apply str_ext
          simp only [String.data_append, List.append_assoc]
          simp
      case str =>
        simp only [List.mem_singleton] at hm
        subst hm
        exact Or.inr ⟨kv2.1 ++ ": \"" ++ pyStr (.str s2) ++ "\"", by simp [String.append_assoc]⟩
      case int =>
        simp only [List.mem_singleton] at hm
        subst hm
        exact Or.inr ⟨kv2.1 ++ ": \"" ++ pyStr (.int n2) ++ "\"", by simp [String.append_assoc]⟩
      case bool =>
        simp only [List.mem_singleton] at hm
        subst hm
        exact Or.inr ⟨kv2.1 ++ ": \"" ++ pyStr (.bool b2) ++ "\"", by simp [String.append_assoc]⟩
      case null =>
        simp only [List.mem_singleton] at hm
        subst hm
        exact Or.inr ⟨kv2.1 ++ ": \"" ++ pyStr .null ++ "\"", by simp [String.append_assoc]⟩
      case arr =>
        simp only [List.mem_singleton] at hm
        subst hm
        exact Or.inr ⟨kv2.1 ++ ": \"" ++ pyStr (.arr l2) ++ "\"", by simp [String.append_assoc]⟩
  | arr l => simp [resourceFieldValueLines] at h
  | null => simp [resourceFieldValueLines] at h

/-- If the disputed field prefix can head neither a `"    <f>:"` line for any
`f` in the order nor a six-space nested line, no emitted line starts with
it. -/
theorem fieldLoop_no_prefix (order : List String) (rf : List (String × JVal)) (g : String)
    (hg : ∀ f ∈ order, ∀ rest : String,
      ¬ ("    " ++ g ++ ":").data <+: (("    " ++ f ++ ":") ++ rest).data)
    (hg2 : ∀ rest : String, ¬ ("    " ++ g ++ ":").data <+: ("      " ++ rest).data) :
    ∀ line ∈ fieldLoop order rf, ¬ ("    " ++ g ++ ":").data <+: line.data := by
  intro line hline
  obtain ⟨f, hf, hm⟩ := List.mem_flatMap.mp hline
  split at hm
  · cases hm
  · rcases hlk : lookupField rf f with _ | v
    all_goals rw [hlk] at hm
    · cases hm
    · rcases resourceFieldValueLines_shape f v line hm with ⟨rest, hr⟩ | ⟨rest, hr⟩
      · subst hr
        exact hg f hf rest
      · subst hr
        exact hg2 rest

/-- Every field the classifier can select comes from the union of the four
fixed orders. -/
theorem fieldOrder_subset (rf : List (String × JVal)) (f : String) (h : f ∈ fieldOrder rf) :
    f ∈ (["identifier", "name", "type", "semantic_model_file", "id_column", "max_results",
      "title_column", "search_service", "filter"] : List String) := by
  unfold fieldOrder at h
  split at h
  · fin_cases h <;> decide
  · split at h
    · fin_cases h <;> decide
    · split at h
      · fin_cases h <;> decide
      · split at h
        · fin_cases h <;> decide
        · exact h

theorem lookupField_perm {l₁ l₂ : List (String × JVal)} (hp : l₁.Perm l₂) :
    (l₁.map Prod.fst).Nodup → ∀ k, lookupField l₁ k = lookupField l₂ k := by
  induction hp with
  | nil => exact fun _ _ => rfl
  | cons x t ih =>
    intro hn k
    simp only [List.map_cons, List.nodup_cons] at hn
    simp only [lookupField]
    split
    · rfl
    · exact ih hn.2 k
  | swap x y t =>
    intro hn k
    simp only [List.map_cons, List.nodup_cons, List.mem_cons, not_or] at hn
    simp only [lookupField]
    by_cases h1 : y.1 = k <;> by_cases h2 : x.1 = k <;> simp [h1, h2]
    exact absurd (h1.trans h2.symm) hn.1.1
  | trans h₁ h₂ ih₁ ih₂ =>
    intro hn k
    rw [ih₁ hn k, ih₂ (((h₁.map Prod.fst).nodup_iff).mp hn) k]

theorem containsKey_perm {l₁ l₂ : List (String × JVal)} (hp : l₁.Perm l₂)
    (hn : (l₁.map Prod.fst).Nodup) (k : String) : containsKey l₁ k = containsKey l₂ k := by
  simp [containsKey, lookupField_perm hp hn k]

theorem fieldOrder_perm {l₁ l₂ : List (String × JVal)} (hp : l₁.Perm l₂)
    (hn : (l₁.map Prod.fst).Nodup) : fieldOrder l₂ = fieldOrder l₁ := by
  unfold fieldOrder
  rw [lookupField_perm hp hn "type", containsKey_perm hp hn "semantic_model_file",
    containsKey_perm hp hn "id_column"]

theorem fieldLoop_perm (order : List String) {l₁ l₂ : List (String × JVal)}
    (hp : l₁.Perm l₂) (hn : (l₁.map Prod.fst).Nodup) :
    fieldLoop order l₂ = fieldLoop order l₁ := by
  unfold fieldLoop
  congr 1
  funext field
  rw [lookupField_perm hp hn field]

theorem classifiedFieldLines_perm {l₁ l₂ : List (String × JVal)} (hp : l₁.Perm l₂)
    (hn : (l₁.map Prod.fst).Nodup) : classifiedFieldLines l₂ = classifiedFieldLines l₁ := by
  unfold classifiedFieldLines
  rw [fieldOrder_perm hp hn, fieldLoop_perm _ hp hn]

theorem seqLines_mem {α : Type} (l : List α) (f : α → Option (List String))
    (out : List String) (h : seqLines l f = some out) (x : α) (hx : x ∈ l) :
    ∃ lx, f x = some lx ∧ ∀ e ∈ lx, e ∈ out := by
  induction l generalizing out with
  | nil => cases hx
  | cons y ys ih =>
    unfold seqLines at h
    rw [Option.bind_eq_some] at h
    obtain ⟨a, ha, h⟩ := h
    rw [Option.bind_eq_some] at h
    obtain ⟨b, hb, h⟩ := h
    obtain rfl := Option.some_inj.mp h
    rcases List.mem_cons.mp hx with rfl | hx
    · exact ⟨a, ha, fun e he => List.mem_append.mpr (Or.inl he)⟩
    · obtain ⟨lx, hfx, hsub⟩ := ih b hb hx
      exact ⟨lx, hfx, fun e he => List.mem_append.mpr (Or.inr (hsub e he))⟩

/-- C10: the shape classification has fixed precedence, so a resource whose
`type` is `function` or `procedure` is emitted with the order
`[identifier, name, type]` regardless of which other keys are present: the
emission equals the loop over only those three fields, and no emitted line
carries an `id_column`, `semantic_model_file`, `max_results`,
`title_column`, `search_service` or `filter` field prefix. -/
theorem function_resource_fields (rf : List (String × JVal))
    (h : pyEqS ((lookupField rf "type").getD (.str "")) "function" = true ∨
         pyEqS ((lookupField rf "type").getD (.str "")) "procedure" = true) :
    fieldOrder rf = ["identifier", "name", "type"] ∧
    classifiedFieldLines rf = fieldLoop ["identifier", "name", "type"] rf ∧
    ∀ g ∈ (["id_column", "semantic_model_file", "max_results", "title_column",
        "search_service", "filter"] : List String),
      ∀ line ∈ classifiedFieldLines rf, ¬ ("    " ++ g ++ ":").data <+: line.data := by
  have horder : fieldOrder rf = ["identifier", "name", "type"] := by
    rcases h with h | h
    · unfold fieldOrder
      rw [if_pos h]
    · have hstr := (pyEqS_iff _ _).mp h
      have hf : pyEqS ((lookupField rf "type").getD (.str "")) "function" = false := by
        rw [hstr]
        decide
      unfold fieldOrder
      rw [if_neg (by rw [hf]; simp), if_pos h]
  refine ⟨horder, by rw [classifiedFieldLines, horder], ?_⟩
  intro g hg line hline
  rw [classifiedFieldLines, horder] at hline
  refine fieldLoop_no_prefix _ rf g ?_ ?_ line hline
  · intro f hf rest
    rw [String.data_append]
    fin_cases hg <;> fin_cases hf <;>
      first
      | exact not_prefix_append_of_ne _ _ _ 4 (by decide) (by decide) (by decide)
      | exact not_prefix_append_of_ne _ _ _ 5 (by decide) (by decide) (by decide)
      | exact not_prefix_append_of_ne _ _ _ 6 (by decide) (by decide) (by decide)
  · intro rest
    rw [String.data_append]
    fin_cases hg <;>
      exact not_prefix_append_of_ne _ _ _ 4 (by decide) (by decide) (by decide)

/-- Witness for `function_resource_fields`: a `function`-typed resource that
also carries `id_column` and `semantic_model_file` keys. -/
theorem function_resource_fields_witness :
    fieldOrder [("type", JVal.str "function"), ("id_column", JVal.str "IC"),
        ("semantic_model_file", JVal.str "SM"), ("identifier", JVal.str "db.f")] =
      ["identifier", "name", "type"] ∧
    classifiedFieldLines [("type", JVal.str "function"), ("id_column", JVal.str "IC"),
        ("semantic_model_file", JVal.str "SM"), ("identifier", JVal.str "db.f")] =
      fieldLoop ["identifier", "name", "type"]
        [("type", JVal.str "function"), ("id_column", JVal.str "IC"),
         ("semantic_model_file", JVal.str "SM"), ("identifier", JVal.str "db.f")] ∧
    ¬ ("    " ++ "id_column" ++ ":").data <+: ("    identifier: \"db.f\"" : String).data :=
  ⟨(function_resource_fields [("type", JVal.str "function"), ("id_column", JVal.str "IC"),
      ("semantic_model_file", JVal.str "SM"), ("identifier", JVal.str "db.f")] (Or.inl (by decide))).1,
   (function_resource_fields [("type", JVal.str "function"), ("id_column", JVal.str "IC"),
      ("semantic_model_file", JVal.str "SM"), ("identifier", JVal.str "db.f")] (Or.inl (by decide))).2.1,
   (function_resource_fields [("type", JVal.str "function"), ("id_column", JVal.str "IC"),
      ("semantic_model_file", JVal.str "SM"), ("identifier", JVal.str "db.f")] (Or.inl (by decide))).2.2 "id_column" (by decide)
     "    identifier: \"db.f\"" (by decide)⟩

/-- C4: a resource with `id_column` present, no `function`/`procedure` type
and no `semantic_model_file` is emitted in the CortexSearch order
`[id_column, max_results, name, title_column]` (present fields only), and
the emission is invariant under permuting the input mapping's keys. -/
theorem cortex_search_resource_fields (rf : List (String × JVal))
    (hid : containsKey rf "id_column" = true)
    (hsmf : containsKey rf "semantic_model_file" = false)
    (hfn : pyEqS ((lookupField rf "type").getD (.str "")) "function" = false)
    (hpr : pyEqS ((lookupField rf "type").getD (.str "")) "procedure" = false) :
    fieldOrder rf = ["id_column", "max_results", "name", "title_column"] ∧
    classifiedFieldLines rf = fieldLoop ["id_column", "max_results", "name", "title_column"] rf ∧
    ∀ rf2, (rf.map Prod.fst).Nodup → rf.Perm rf2 →
      classifiedFieldLines rf2 = classifiedFieldLines rf := by
  have horder : fieldOrder rf = ["id_column", "max_results", "name", "title_column"] := by
    unfold fieldOrder
    rw [if_neg (by rw [hfn]; simp), if_neg (by rw [hpr]; simp),
      if_neg (by rw [hsmf]; simp), if_pos hid]
  refine ⟨horder, by rw [classifiedFieldLines, horder], ?_⟩
  intro rf2 hn hp
  exact classifiedFieldLines_perm hp hn

/-- Witness for `cortex_search_resource_fields`: scrambled input key order,
and a transposition of the first two keys. -/
theorem cortex_search_resource_fields_witness :
    fieldOrder [("title_column", JVal.str "TITLE"), ("id_column", JVal.str "ID"),
        ("max_results", JVal.int 5), ("name", JVal.str "svc")] =
      ["id_column", "max_results", "name", "title_column"] ∧
    classifiedFieldLines [("title_column", JVal.str "TITLE"), ("id_column", JVal.str "ID"),
        ("max_results", JVal.int 5), ("name", JVal.str "svc")] =
      fieldLoop ["id_column", "max_results", "name", "title_column"]
        [("title_column", JVal.str "TITLE"), ("id_column", JVal.str "ID"),
         ("max_results", JVal.int 5), ("name", JVal.str "svc")] ∧
    classifiedFieldLines [("id_column", JVal.str "ID"), ("title_column", JVal.str "TITLE"),
        ("max_results", JVal.int 5), ("name", JVal.str "svc")] =
      classifiedFieldLines [("title_column", JVal.str "TITLE"), ("id_column", JVal.str "ID"),
        ("max_results", JVal.int 5), ("name", JVal.str "svc")] :=
  ⟨(cortex_search_resource_fields [("title_column", JVal.str "TITLE"), ("id_column", JVal.str "ID"),
      ("max_results", JVal.int 5), ("name", JVal.str "svc")] (by decide) (by decide) (by decide) (by decide)).1,
   (cortex_search_resource_fields [("title_column", JVal.str "TITLE"), ("id_column", JVal.str "ID"),
      ("max_results", JVal.int 5), ("name", JVal.str "svc")] (by decide) (by decide) (by decide) (by decide)).2.1,
   (cortex_search_resource_fields [("title_column", JVal.str "TITLE"), ("id_column", JVal.str "ID"),
      ("max_results", JVal.int 5), ("name", JVal.str "svc")] (by decide) (by decide) (by decide) (by decide)).2.2
     _ (by decide) (List.Perm.swap _ _ _)⟩

/-- C2 counterexample: in the canonical serializer
(`cortex_agents_ddl.py`/`SiS_Version.py`), a resource holding only
`semantic_view` falls to the fallback order, which omits `semantic_view`
entirely: the full rendered statement contains no `semantic_view` at all,
contradicting the claimed `[semantic_view]` emission. -/
theorem semantic_view_counterexample :
    generate_agent_sql "A" "D" "S"
        (.ok (.obj [("tool_resources", .obj [("T", .obj [("semantic_view",
          JVal.str "MYVIEW")])])])) "" =
      some "CREATE OR REPLACE AGENT D.S.A\nFROM SPECIFICATION\n$$\ntool_resources:\n  T:\n\n$$;" ∧
    ¬ (("semantic_view" : String).data <:+:
        ("CREATE OR REPLACE AGENT D.S.A\nFROM SPECIFICATION\n$$\ntool_resources:\n  T:\n\n$$;" :
          String).data) := by
  refine ⟨by decide, by decide⟩

/-- C2 (amended): the canonical serializer never emits a `semantic_view`
field for any resource — none of its four field orders contains it — while
the drifted copy in `cortex_agent_builder.py` does emit it (its single fixed
order includes `semantic_view`, with embedded quotes escaped). -/
theorem semantic_view_field_amended :
    (∀ (rf : List (String × JVal)) (line : String), line ∈ classifiedFieldLines rf →
      ¬ ("    " ++ "semantic_view" ++ ":").data <+: line.data) ∧
    (∀ (rf : List (String × JVal)) (v : String),
      lookupField rf "semantic_view" = some (.str v) →
      ("    " ++ "semantic_view" ++ ": \"" ++ CortexAgentBuilder.escapeDq v ++ "\"") ∈
        CortexAgentBuilder.classifiedFieldLines rf) := by
  constructor
  · intro rf line hline
    refine fieldLoop_no_prefix (fieldOrder rf) rf "semantic_view" ?_ ?_ line hline
    · intro f hf rest
      rw [String.data_append]
      have hf9 := fieldOrder_subset rf f hf
      clear hf
      fin_cases hf9 <;>
        first
        | exact not_prefix_append_of_ne _ _ _ 4 (by decide) (by decide) (by decide)
        | exact not_prefix_append_of_ne _ _ _ 6 (by decide) (by decide) (by decide)
        | exact not_prefix_append_of_ne _ _ _ 13 (by decide) (by decide) (by decide)
    · intro rest
      rw [String.data_append]
      exact not_prefix_append_of_ne _ _ _ 4 (by decide) (by decide) (by decide)
  · intro rf v hv
    unfold CortexAgentBuilder.classifiedFieldLines
    refine List.mem_flatMap.mpr ⟨"semantic_view", by decide, ?_⟩
    rw [if_neg (by decide), hv]
    simp [CortexAgentBuilder.resourceFieldValueLines]

/-- Witness for `semantic_view_field_amended` at a concrete resource holding
`semantic_view` and `name`. -/
theorem semantic_view_field_amended_witness :
    ¬ ("    " ++ "semantic_view" ++ ":").data <+: ("    name: \"N\"" : String).data ∧
    ("    " ++ "semantic_view" ++ ": \"" ++ CortexAgentBuilder.escapeDq "V" ++ "\"") ∈
      CortexAgentBuilder.classifiedFieldLines
        [("semantic_view", JVal.str "V"), ("name", JVal.str "N")] :=
  ⟨semantic_view_field_amended.1 [("semantic_view", JVal.str "V"), ("name", JVal.str "N")]
      "    name: \"N\"" (by decide),
   semantic_view_field_amended.2 [("semantic_view", JVal.str "V"), ("name", JVal.str "N")]
      "V" rfl⟩

/-- C9: every tool entry holding a `tool_spec` is emitted with a quoted
`type:` line and a quoted `name:` line right after the `- tool_spec:` header
(the value defaulting to the empty string when the field is absent), and
every property of a present `input_schema` gets a bare `type:` line whose
value defaults to the bare word `string` when the property definition has no
`type` field. -/
theorem tool_spec_type_name_lines (t : JVal) (ts : List (String × JVal)) (ls : List String)
    (hts : pyMemLookup t "tool_spec" = some (some (.obj ts)))
    (hls : toolEntryLines t = some ls) :
    (∃ rest, ls = "  - tool_spec:" ::
        ("      type: \"" ++ pyStr ((lookupField ts "type").getD (.str "")) ++ "\"") ::
        ("      name: \"" ++ pyStr ((lookupField ts "name").getD (.str "")) ++ "\"") :: rest) ∧
    (∀ (so : JVal) (props : List (String × JVal)) (pn : String) (pd : JVal),
      lookupField ts "input_schema" = some so →
      pyMemLookup so "properties" = some (some (.obj props)) →
      (pn, pd) ∈ props →
      ∃ pdf, pd = .obj pdf ∧
        ("            type: " ++ pyStr ((lookupField pdf "type").getD (.str "string"))) ∈ ls) := by
  unfold toolEntryLines at hls
  rw [hts] at hls
  rw [Option.bind_eq_some] at hls
  obtain ⟨o1, ho1, hls⟩ := hls
  obtain rfl := Option.some_inj.mp ho1
  dsimp only at hls
  simp only [pyGet, Option.some_bind] at hls
  rw [Option.bind_eq_some] at hls
  obtain ⟨descLines, hdesc, hls⟩ := hls
  rw [Option.bind_eq_some] at hls
  obtain ⟨schemaLines, hschema, hls⟩ := hls
  obtain rfl := Option.some_inj.mp hls
  constructor
  · refine ⟨descLines ++ schemaLines ++ [""], ?_⟩
    simp [List.cons_append, List.append_assoc]
  · intro so props pn pd hso hprops hmem
    simp only [pyMemLookup] at hschema
    rw [hso] at hschema
    simp only [Option.some_bind] at hschema
    unfold inputSchemaLines at hschema
    rw [hprops] at hschema
    simp only [Option.some_bind] at hschema
    simp only [pyItems, Option.some_bind] at hschema
    rw [Option.bind_eq_some] at hschema
    obtain ⟨propPart, hpp, hschema⟩ := hschema
    rw [Option.bind_eq_some] at hpp
    obtain ⟨pls, hpls, hpp⟩ := hpp
    obtain rfl := Option.some_inj.mp hpp
    rw [Option.bind_eq_some] at hschema
    obtain ⟨ro, hro, hschema⟩ := hschema
    rw [Option.bind_eq_some] at hschema
    obtain ⟨reqPart, hreq, hschema⟩ := hschema
    obtain rfl := Option.some_inj.mp hschema
    obtain ⟨plx, hplx, hsub⟩ := seqLines_mem props propertyLines pls hpls (pn, pd) hmem
    unfold propertyLines at hplx
    rw [Option.bind_eq_some] at hplx
    obtain ⟨dvo, hdvo, hplx⟩ := hplx
    rw [Option.bind_eq_some] at hplx
    obtain ⟨descPart, hdp, hplx⟩ := hplx
    rw [Option.bind_eq_some] at hplx
    obtain ⟨tvv, htvv, hplx⟩ := hplx
    obtain rfl := Option.some_inj.mp hplx
    cases pd with
    | obj pdf =>
      refine ⟨pdf, rfl, ?_⟩
      have htv2 : tvv = (lookupField pdf "type").getD (.str "string") :=
        (Option.some_inj.mp htvv).symm
      have hL : ("            type: " ++ pyStr tvv) ∈
          (("          " ++ pn ++ ":") :: descPart) ++ ["            type: " ++ pyStr tvv] :=
        List.mem_append.mpr (Or.inr (List.mem_singleton.mpr rfl))
      have h1 := hsub _ hL
      have h2 : ("            type: " ++ pyStr tvv) ∈ "        properties:" :: pls :=
        List.mem_cons.mpr (Or.inr h1)
      have h3 : ("            type: " ++ pyStr tvv) ∈
          ("      input_schema:" :: "        type: object" :: "        properties:" :: pls) ++
            reqPart :=
        List.mem_append.mpr (Or.inl (List.mem_cons.mpr (Or.inr (List.mem_cons.mpr (Or.inr h2)))))
      rw [← htv2]
      exact List.mem_append.mpr (Or.inl (List.mem_append.mpr (Or.inr h3)))
    | str s => exact absurd htvv (by simp [pyGet])
    | int n => exact absurd htvv (by simp [pyGet])
    | bool b => exact absurd htvv (by simp [pyGet])
    | null => exact absurd htvv (by simp [pyGet])
    | arr l => exact absurd htvv (by simp [pyGet])

/-- Witness for `tool_spec_type_name_lines` at a concrete tool whose
`tool_spec` has no `type` field (emitted as `type: ""`) and a property `n`
with no `type` field (emitted as the bare default `type: string`). -/
theorem tool_spec_type_name_lines_witness :
    (∃ rest, (["  - tool_spec:", "      type: \"\"", "      name: \"Y\"",
        "      input_schema:", "        type: object", "        properties:",
        "          q:", "            description: \"dq\"", "            type: string",
        "          n:", "            type: string", "        required:",
        "          - q", ""] : List String) = "  - tool_spec:" ::
        ("      type: \"" ++ pyStr ((lookupField [("name", JVal.str "Y"),
            ("input_schema", JVal.obj [("type", JVal.str "object"),
              ("properties", JVal.obj [("q", JVal.obj [("description", JVal.str "dq"),
                ("type", JVal.str "string")]), ("n", JVal.obj [])]),
              ("required", JVal.arr [JVal.str "q"])])] "type").getD (.str "")) ++ "\"") ::
        ("      name: \"" ++ pyStr ((lookupField [("name", JVal.str "Y"),
            ("input_schema", JVal.obj [("type", JVal.str "object"),
              ("properties", JVal.obj [("q", JVal.obj [("description", JVal.str "dq"),
                ("type", JVal.str "string")]), ("n", JVal.obj [])]),
              ("required", JVal.arr [JVal.str "q"])])] "name").getD (.str "")) ++ "\"") ::
        rest) ∧
    (∃ pdf, (JVal.obj [] : JVal) = .obj pdf ∧
      ("            type: " ++ pyStr ((lookupField pdf "type").getD (.str "string"))) ∈
        (["  - tool_spec:", "      type: \"\"", "      name: \"Y\"",
          "      input_schema:", "        type: object", "        properties:",
          "          q:", "            description: \"dq\"", "            type: string",
          "          n:", "            type: string", "        required:",
          "          - q", ""] : List String)) :=
  ⟨(tool_spec_type_name_lines
      (.obj [("tool_spec", .obj [("name", JVal.str "Y"),
        ("input_schema", JVal.obj [("type", JVal.str "object"),
          ("properties", JVal.obj [("q", JVal.obj [("description", JVal.str "dq"),
            ("type", JVal.str "string")]), ("n", JVal.obj [])]),
          ("required", JVal.arr [JVal.str "q"])])])]) _ _ rfl rfl).1,
   (tool_spec_type_name_lines
      (.obj [("tool_spec", .obj [("name", JVal.str "Y"),
        ("input_schema", JVal.obj [("type", JVal.str "object"),
          ("properties", JVal.obj [("q", JVal.obj [("description", JVal.str "dq"),
            ("type", JVal.str "string")]), ("n", JVal.obj [])]),
          ("required", JVal.arr [JVal.str "q"])])])]) _ _ rfl rfl).2
     (JVal.obj [("type", JVal.str "object"),
        ("properties", JVal.obj [("q", JVal.obj [("description", JVal.str "dq"),
          ("type", JVal.str "string")]), ("n", JVal.obj [])]),
        ("required", JVal.arr [JVal.str "q"])])
     [("q", JVal.obj [("description", JVal.str "dq"), ("type", JVal.str "string")]),
      ("n", JVal.obj [])]
     "n" (JVal.obj []) rfl rfl
     (List.mem_cons.mpr (Or.inr (List.mem_singleton.mpr rfl)))⟩
